import Mathlib

/-!
Verification of the image-converter core (`src/utils/ImageConverter.js`).

Bytes are modelled as natural numbers (each in `[0, 256)` where relevant),
byte streams as `List Nat`, and JavaScript 32-bit unsigned arithmetic as
`Nat` arithmetic with explicit masking (`% 2 ^ 32`, `&&& 0xFF`, `>>> 8`).
`Math.round` on nonnegative values is `⌊x + 1/2⌋`, modelled exactly over `ℚ`.
-/

namespace ImageConverter

/-- JavaScript `Math.round` for nonnegative arguments: round half up,
modelled exactly over the rationals. -/
def jsRound (q : ℚ) : ℤ := ⌊q + 1 / 2⌋

/-- Big-endian bytes of a 16-bit write (`DataView.setUint16(_, v, false)`);
the stored value is `v` reduced modulo 2^16. -/
def beBytes16 (v : Nat) : List Nat := [v / 256 % 256, v % 256]

/-- Big-endian bytes of a 32-bit write (`DataView.setUint32(_, v, false)`);
the stored value is `v` reduced modulo 2^32. -/
def beBytes32 (v : Nat) : List Nat :=
  [v / 2 ^ 24 % 256, v / 2 ^ 16 % 256, v / 256 % 256, v % 256]

/-- Reassemble a big-endian 32-bit value from four bytes. -/
def beDecode32 (l : List Nat) : Nat :=
  l.getD 0 0 * 2 ^ 24 + l.getD 1 0 * 2 ^ 16 + l.getD 2 0 * 256 + l.getD 3 0

/-! ## CRC32 checksum unit (`_calculateCrc32`) -/

/-- One conditional XOR-shift step of the CRC table generation:
`c = (c & 1) ? (0xEDB88320 ^ (c >>> 1)) : (c >>> 1)`. -/
def crcStep (c : Nat) : Nat :=
  if c % 2 = 1 then 0xEDB88320 ^^^ (c >>> 1) else c >>> 1

/-- Entry `i` of the 256-entry CRC table: eight XOR-shift steps applied to `i`. -/
def crcTableVal (i : Nat) : Nat := crcStep^[8] i

/-- One byte of the running checksum update:
`crc = crcTable[(crc ^ byte) & 0xFF] ^ (crc >>> 8)`. -/
def crc32Update (crc b : Nat) : Nat :=
  crcTableVal ((crc ^^^ b) &&& 0xFF) ^^^ (crc >>> 8)

/-- `_calculateCrc32`: running checksum over the data bytes, initialized to
`0xFFFFFFFF` (the unsigned reading of the source's `crc = -1`), finalized by
complement (`(crc ^ -1) >>> 0` on a 32-bit value). -/
def calculateCrc32 (data : List Nat) : Nat :=
  (data.foldl crc32Update 0xFFFFFFFF) ^^^ 0xFFFFFFFF

/-- Modelled from the spec (§4.6): the PNG specification's CRC-32 — a table
from the reflected polynomial `0xEDB88320` built by 8 conditional XOR-shift
steps per index, a checksum initialized to `0xFFFFFFFF`, updated per byte as
`table[(crc ^ byte) & 0xFF] ^ (crc >> 8)`, finalized by complementing.
Arithmetic forms (`% 256`, `/ 2`, `/ 256`, `+ complement as xor with all-ones`)
are spelled out independently of the source's bitwise operators. -/
def pngSpecCrc32 (data : List Nat) : Nat :=
  let tableEntry : Nat → Nat := fun i =>
    (fun c => if c % 2 = 1 then Nat.xor 0xEDB88320 (c / 2) else c / 2)^[8] i
  let update : Nat → Nat → Nat := fun crc b =>
    Nat.xor (tableEntry (Nat.xor crc b % 256)) (crc / 256)
  Nat.xor (data.foldl update 0xFFFFFFFF) 0xFFFFFFFF

/-! ## PNG pHYs chunk injection (`_addPngDpiChunk`, `canvasToPng`) -/

/-- `Math.round(dpi * 39.3701)`: DPI to pixels per meter. -/
def pixelsPerMeter (dpi : Nat) : Nat :=
  (jsRound ((dpi : ℚ) * (393701 / 10000))).toNat

/-- The 9-byte pHYs payload: X and Y pixels-per-unit (big-endian 32-bit),
then unit byte 1 (meter). -/
def physPayload (dpi : Nat) : List Nat :=
  beBytes32 (pixelsPerMeter dpi) ++ beBytes32 (pixelsPerMeter dpi) ++ [1]

/-- ASCII bytes of the chunk type `pHYs`. -/
def physChunkType : List Nat := [0x70, 0x48, 0x59, 0x73]

/-- The full 21-byte pHYs chunk: big-endian length 9, type, payload,
big-endian CRC32 over type‖payload. -/
def physChunk (dpi : Nat) : List Nat :=
  beBytes32 9 ++ physChunkType ++ physPayload dpi ++
    beBytes32 (calculateCrc32 (physChunkType ++ physPayload dpi))

/-- The validation performed by `_addPngDpiChunk`: at least 33 bytes,
ASCII `PNG` at offsets 1–3 and ASCII `IHDR` at offsets 12–15. -/
def pngInjectValid (png : List Nat) : Prop :=
  33 ≤ png.length ∧
    (png.drop 1).take 3 = [0x50, 0x4E, 0x47] ∧
    (png.drop 12).take 4 = [0x49, 0x48, 0x44, 0x52]

instance (png : List Nat) : Decidable (pngInjectValid png) := by
  unfold pngInjectValid; infer_instance

/-- `_addPngDpiChunk`: validate, then splice the pHYs chunk immediately after
the 8-byte signature plus 25-byte IHDR chunk (insertion point 33). -/
def addPngDpiChunk (png : List Nat) (dpi : Nat) : Except String (List Nat) :=
  if pngInjectValid png then
    .ok (png.take 33 ++ physChunk dpi ++ png.drop 33)
  else
    .error "Invalid PNG format: Missing IHDR chunk at expected position."

/-- The metadata-injection step of `canvasToPng`: on any injection error the
original PNG bytes are returned unchanged (non-fatal warning path). -/
def canvasToPngMeta (png : List Nat) (dpi : Nat) : List Nat :=
  match addPngDpiChunk png dpi with
  | .ok r => r
  | .error _ => png

/-! ## Color compositor (`_rgbaToRgb`, `_hasTransparency`) -/

/-- The white-background blend of one channel:
`Math.round(src * alpha + 255 * (1 - alpha))` with `alpha = a / 255`. -/
def blend (s a : Nat) : Nat :=
  (jsRound ((s : ℚ) * ((a : ℚ) / 255) + 255 * (1 - (a : ℚ) / 255))).toNat

/-- The compositing loop of `_rgbaToRgb` over the flat RGBA byte list
(4 bytes per pixel): fully opaque pixels (`alpha === 1`, i.e. `a = 255`)
copy the source RGB directly, others apply the blend formula. -/
def compositePixels : List Nat → List Nat
  | r :: g :: b :: a :: rest =>
      (if a = 255 then [r, g, b] else [blend r a, blend g a, blend b a]) ++
        compositePixels rest
  | _ => []

/-- `_rgbaToRgb`: with `preserveTransparency` the RGBA data is returned
unchanged; otherwise each pixel is blended against white into RGB24. -/
def rgbaToRgb (rgba : List Nat) (preserveTransparency : Bool) : List Nat :=
  if preserveTransparency then rgba else compositePixels rgba

/-- The alpha channel of a flat RGBA byte list (every fourth byte, index
`4k + 3`), as scanned by `_hasTransparency`. -/
def alphas : List Nat → List Nat
  | _ :: _ :: _ :: a :: rest => a :: alphas rest
  | _ => []

/-- `_hasTransparency`: true when some alpha byte is `< 255`. -/
def hasTransparency : List Nat → Bool
  | _ :: _ :: _ :: a :: rest => decide (a < 255) || hasTransparency rest
  | _ => false

/-- Dropping every fourth byte of a flat RGBA byte list. -/
def dropAlpha : List Nat → List Nat
  | r :: g :: b :: _ :: rest => r :: g :: b :: dropAlpha rest
  | _ => []

/-! ## JPEG JFIF patch (`_setJfifDpi`) -/

/-- The APPn scan loop of `_setJfifDpi`, searching for a segment carrying the
`JFIF\0` signature at bytes 4–8 relative to the segment start. Out-of-range
reads yield 0, matching JavaScript bitwise coercion of `undefined`; the loop
is expressed with explicit fuel, which `findJfif` instantiates with the
stream length — sufficient because each iteration advances the offset by at
least 2 while it must stay below `length - 1`. -/
def findJfifAux (jpeg : List Nat) : Nat → Nat → Option Nat
  | 0, _ => none
  | fuel + 1, offset =>
    if offset < jpeg.length - 1 then
      if jpeg.getD offset 0 = 0xFF then
        if 0xE0 ≤ jpeg.getD (offset + 1) 0 ∧ jpeg.getD (offset + 1) 0 ≤ 0xEF then
          if offset + 9 < jpeg.length ∧
              jpeg.getD (offset + 4) 0 = 0x4A ∧ jpeg.getD (offset + 5) 0 = 0x46 ∧
              jpeg.getD (offset + 6) 0 = 0x49 ∧ jpeg.getD (offset + 7) 0 = 0x46 ∧
              jpeg.getD (offset + 8) 0 = 0x00 then
            some offset
          else
            findJfifAux jpeg fuel
              (offset + 2 + (jpeg.getD (offset + 2) 0 * 256 + jpeg.getD (offset + 3) 0))
        else none
      else none
    else none

/-- Index of the segment carrying the `JFIF\0` signature within the initial
APPn run, starting the scan at offset 2 (after the SOI marker). -/
def findJfif (jpeg : List Nat) : Option Nat := findJfifAux jpeg jpeg.length 2

/-- The 18-byte APP0 segment built from scratch when no JFIF segment exists:
marker, length 16, `JFIF\0`, version 1.1, unit 1, X/Y DPI, zero thumbnail. -/
def jfifSegment (dpi : Nat) : List Nat :=
  [0xFF, 0xE0, 0x00, 0x10, 0x4A, 0x46, 0x49, 0x46, 0x00, 0x01, 0x01, 0x01,
   dpi / 256 % 256, dpi % 256, dpi / 256 % 256, dpi % 256, 0x00, 0x00]

/-- `_setJfifDpi`: streams not starting with the SOI marker `0xFFD8` are
returned unchanged; when the scan finds the JFIF signature at `i`, the unit
byte at `i + 11` is set to 1 and the big-endian 16-bit DPI is written at
`i + 12..13` and `i + 14..15` (out-of-range writes are no-ops, as for a
JavaScript typed array); otherwise a fresh APP0 segment is spliced after the
SOI marker. -/
def setJfifDpi (jpeg : List Nat) (dpi : Nat) : List Nat :=
  if jpeg.getD 0 0 = 0xFF ∧ jpeg.getD 1 0 = 0xD8 then
    match findJfif jpeg with
    | some i =>
        ((((jpeg.set (i + 11) 1).set (i + 12) (dpi / 256 % 256)).set
            (i + 13) (dpi % 256)).set (i + 14) (dpi / 256 % 256)).set
          (i + 15) (dpi % 256)
    | none => jpeg.take 2 ++ jfifSegment dpi ++ jpeg.drop 2
  else jpeg

/-! ## Input validation (`_validateInputs`, `convertSvg`) -/

/-- A JavaScript number: NaN, the two infinities, or a finite value
(modelled as a rational). -/
inductive JSNum
  | nan
  | posInf
  | negInf
  | fin (q : ℚ)
deriving DecidableEq

/-- JavaScript `v <= c` for a finite constant `c`: false whenever `v` is NaN. -/
def jsLe : JSNum → ℚ → Bool
  | .nan, _ => false
  | .posInf, _ => false
  | .negInf, _ => true
  | .fin q, c => q ≤ c

/-- JavaScript `v > c` for a finite constant `c`: false whenever `v` is NaN. -/
def jsGt : JSNum → ℚ → Bool
  | .nan, _ => false
  | .posInf, _ => true
  | .negInf, _ => false
  | .fin q, c => c < q

/-- JavaScript `v < c` for a finite constant `c`: false whenever `v` is NaN. -/
def jsLt : JSNum → ℚ → Bool
  | .nan, _ => false
  | .posInf, _ => false
  | .negInf, _ => true
  | .fin q, c => q < c

/-- The input-validation error raised by `_validateInputs`. -/
inductive ValidationErr
  | invalidSvg
  | unsupportedFormat
  | invalidDpi
  | invalidQuality
deriving DecidableEq

/-- The format whitelist of `_validateInputs`. -/
def supportedFormats : List String := ["png", "jpg", "jpeg", "tiff", "tif"]

/-- `String.prototype.toLowerCase()`, modelled characterwise. -/
def strToLower (s : String) : String := ⟨s.data.map Char.toLower⟩

/-- `_validateInputs`, with the DOMParser-based SVG well-formedness check
(an external browser API) abstracted as the boolean `svgOk`, and the
JavaScript `typeof x !== 'number'` tests modelled by `Option JSNum`
(`none` = not a number). Checks run in source order. -/
def validateInputs (svgOk : Bool) (format : String) (dpi quality : Option JSNum) :
    Except ValidationErr Unit :=
  if ¬svgOk then .error .invalidSvg
  else if ¬supportedFormats.contains (strToLower format) then .error .unsupportedFormat
  else match dpi with
    | none => .error .invalidDpi
    | some d =>
      if jsLe d 0 || jsGt d 2400 then .error .invalidDpi
      else match quality with
        | none => .error .invalidQuality
        | some q =>
          if jsLt q 0 || jsGt q 1 then .error .invalidQuality else .ok ()

/-- An error escaping `convertSvg`: either an unwrapped validation error
(thrown before the `try` block) or a wrapped downstream error. -/
inductive ConvError
  | validation (e : ValidationErr)
  | downstream (msg : String)
deriving DecidableEq

/-- The control skeleton of `convertSvg`: validate first; only then run the
rasterization/encoding pipeline (abstracted as an `Except` computation whose
errors get wrapped with context). -/
def convertSvgModel {α : Type} (svgOk : Bool) (format : String)
    (dpi quality : Option JSNum) (pipeline : Except String α) : Except ConvError α :=
  match validateInputs svgOk format dpi quality with
  | .error e => .error (.validation e)
  | .ok () =>
    match pipeline with
    | .ok a => .ok a
    | .error m =>
      .error (.downstream ("SVG to " ++ format ++ " conversion failed: " ++ m))

/-! ## TIFF encoder (`_createTiffTagEntries`, `_buildTiffBuffer`, `canvasToTiff`) -/

/-- A TIFF tag value: a single number, a numeric array (SHORT arrays and
RATIONAL numerator/denominator pairs), or an ASCII string. -/
inductive TiffValue
  | num (n : Nat)
  | arr (l : List Nat)
  | str (s : String)
deriving DecidableEq

/-- One IFD entry, as built by `_createTiffTagEntries`: tag code, type code
(2 = ASCII, 3 = SHORT, 4 = LONG, 5 = RATIONAL), count, value. -/
structure TiffTag where
  tag : Nat
  type : Nat
  count : Nat
  value : TiffValue
deriving DecidableEq

/-- An out-of-line data block recorded by the layout pass of
`_buildTiffBuffer`: its byte offset in the file, the value it carries, and
the value's TIFF type. -/
structure DataBlock where
  offset : Nat
  data : TiffValue
  type : Nat
deriving DecidableEq

instance : Inhabited TiffValue := ⟨.num 0⟩

instance : Inhabited TiffTag := ⟨⟨0, 0, 0, .num 0⟩⟩

/-- Byte size of one element of each TIFF type
(`{ SHORT: 2, LONG: 4, RATIONAL: 8, ASCII: 1 }`). -/
def typeSize : Nat → Nat
  | 2 => 1
  | 3 => 2
  | 4 => 4
  | 5 => 8
  | _ => 0

/-- `_createTiffTagEntries`: the tag table for one image. `hasTransparency`
selects 3 or 4 samples per pixel and appends the ExtraSamples tag; the
DateTime string (produced by `formatDateTime` from the wall clock) is a
parameter. Tag codes are the `piexif.ImageIFD` constants. -/
def createTiffTagEntries (width height dpi compressedDataLength : Nat)
    (hasTransparency : Bool) (datetime : String) : List TiffTag :=
  let samplesPerPixel := if hasTransparency then 4 else 3
  let bitsPerSample := if hasTransparency then [8, 8, 8, 8] else [8, 8, 8]
  [⟨256, 4, 1, .num width⟩,                       -- ImageWidth, LONG
   ⟨257, 4, 1, .num height⟩,                      -- ImageLength, LONG
   ⟨258, 3, samplesPerPixel, .arr bitsPerSample⟩, -- BitsPerSample, SHORT
   ⟨259, 3, 1, .num 8⟩,                           -- Compression = Deflate
   ⟨262, 3, 1, .num 2⟩,                           -- PhotometricInterpretation = RGB
   ⟨273, 4, 1, .num 0⟩,                           -- StripOffsets placeholder
   ⟨277, 3, 1, .num samplesPerPixel⟩,             -- SamplesPerPixel
   ⟨279, 4, 1, .num compressedDataLength⟩,        -- StripByteCounts
   ⟨282, 5, 1, .arr [dpi, 1]⟩,                    -- XResolution, RATIONAL
   ⟨283, 5, 1, .arr [dpi, 1]⟩,                    -- YResolution, RATIONAL
   ⟨296, 3, 1, .num 2⟩,                           -- ResolutionUnit = inch
   ⟨305, 2, 0, .str "ImageConverter.js"⟩,         -- Software, ASCII
   ⟨306, 2, 0, .str datetime⟩] ++                 -- DateTime, ASCII
    (if hasTransparency then [⟨338, 3, 1, .num 1⟩] else []) -- ExtraSamples

/-- The ASCII adjustment at the top of the layout loop:
`tag.value += '\0'; tag.count = tag.value.length`. -/
def adjustAscii (t : TiffTag) : TiffTag :=
  if t.type = 2 then
    match t.value with
    | .str s => { t with value := .str (s ++ "\x00"), count := s.length + 1 }
    | _ => t
  else t

/-- The result of the layout pass: the rewritten tag list, the out-of-line
data blocks, and the final data-block cursor (which becomes the pixel-strip
offset). -/
structure LayoutResult where
  tags : List TiffTag
  blocks : List DataBlock
  next : Nat
deriving DecidableEq

/-- The cursor adjustment after appending a data block:
`if (dataBlockOffset % 2 !== 0) dataBlockOffset++`. -/
def padEven (n : Nat) : Nat := if n % 2 ≠ 0 then n + 1 else n

/-- The layout loop of `_buildTiffBuffer`: ASCII values get a null terminator
and an updated count; entries whose encoded byte length (`typeSize × count`)
exceeds 4 are relocated to an out-of-line data block at the running cursor,
their value field replaced by that offset, with the cursor padded by one byte
whenever it would land on an odd offset. -/
def layoutTags : List TiffTag → Nat → LayoutResult
  | [], off => ⟨[], [], off⟩
  | t :: rest, off =>
    let t1 := adjustAscii t
    let vlen := typeSize t1.type * t1.count
    if 4 < vlen then
      let r := layoutTags rest (padEven (off + vlen))
      ⟨{ t1 with value := .num off } :: r.tags,
       ⟨off, t1.value, t1.type⟩ :: r.blocks, r.next⟩
    else
      let r := layoutTags rest off
      ⟨t1 :: r.tags, r.blocks, r.next⟩

/-- Byte offset of the end of the IFD: 8-byte header + 2-byte entry count +
12 bytes per entry + 4-byte next-IFD pointer. -/
def ifdEnd (numTags : Nat) : Nat := 8 + 2 + numTags * 12 + 4

/-- Patching the StripOffsets value:
`tags.find(t => t.tag === StripOffsets).value = imageDataOffset` mutates the
first entry with tag 273. -/
def patchStripOffsets : List TiffTag → Nat → List TiffTag
  | [], _ => []
  | t :: rest, v =>
    if t.tag = 273 then { t with value := .num v } :: rest
    else t :: patchStripOffsets rest v

/-- The numeric coercion JavaScript applies when a non-number tag value is
passed to `DataView.setUint16/32`: arrays and strings become NaN, stored
as 0. -/
def numOf : TiffValue → Nat
  | .num n => n
  | _ => 0

/-- `Array.isArray(tag.value) ? tag.value[0] : tag.value` under the same
coercion. -/
def firstOf : TiffValue → Nat
  | .num n => n
  | .arr l => l.headD 0
  | .str _ => 0

/-- The 12-byte serialization of one IFD entry (value ≤ 4 bytes stored
inline and zero-padded to 4; larger values already replaced by offsets).
Mirrors the write loop of `_buildTiffBuffer`, including the pad loop from
`valueByteLength` to 4. -/
def entryBytes (t : TiffTag) : List Nat :=
  let vlen := typeSize t.type * t.count
  beBytes16 t.tag ++ beBytes16 t.type ++ beBytes32 t.count ++
    (if vlen ≤ 4 then
      (if t.type = 3 then beBytes16 (numOf t.value)
       else if t.type = 4 then beBytes32 (numOf t.value)
       else beBytes32 (firstOf t.value)) ++ List.replicate (4 - vlen) 0
     else beBytes32 (numOf t.value))

/-- The header, IFD entries and next-IFD terminator, written sequentially
from offset 0: `MM`, magic 42, first-IFD offset 8, entry count, entries,
4-byte zero. -/
def ifdBytes (tags : List TiffTag) : List Nat :=
  beBytes16 0x4D4D ++ beBytes16 42 ++ beBytes32 8 ++ beBytes16 tags.length ++
    tags.flatMap entryBytes ++ beBytes32 0

/-- The bytes of one out-of-line data block (RATIONAL pair as two big-endian
32-bit values, SHORT array elementwise big-endian 16-bit, ASCII as char
codes). -/
def blockBytes (b : DataBlock) : List Nat :=
  if b.type = 5 then
    match b.data with
    | .arr l => beBytes32 (l.getD 0 0) ++ beBytes32 (l.getD 1 0)
    | _ => beBytes32 0 ++ beBytes32 0
  else if b.type = 3 then
    match b.data with
    | .arr l => l.flatMap beBytes16
    | _ => []
  else if b.type = 2 then
    match b.data with
    | .str s => s.data.map (fun c => c.toNat % 256)
    | _ => []
  else []

/-- Writing a byte list into a buffer starting at `off`, one byte at a time
(`setUint8` masks each byte to 8 bits; out-of-range writes are no-ops). -/
def writeList (buf : List Nat) (off : Nat) : List Nat → List Nat
  | [] => buf
  | b :: rest => writeList (buf.set off (b % 256)) (off + 1) rest

/-- The layout pass of `_buildTiffBuffer`, started at the IFD end. -/
def tiffLayout (tags : List TiffTag) : LayoutResult :=
  layoutTags tags (ifdEnd tags.length)

/-- The final data-block cursor: the byte offset of the pixel strip. -/
def tiffImageDataOffset (tags : List TiffTag) : Nat := (tiffLayout tags).next

/-- The tag table after the layout pass and the StripOffsets patch. -/
def tiffFinalTags (tags : List TiffTag) : List TiffTag :=
  patchStripOffsets (tiffLayout tags).tags (tiffImageDataOffset tags)

/-- `_buildTiffBuffer`: run the layout pass starting at the IFD end, patch
StripOffsets with the final cursor (the image data offset), allocate a
zeroed buffer of `imageDataOffset + compressedData.length` bytes, write the
IFD, the data blocks, and finally the compressed pixel data. -/
def buildTiffBuffer (tags : List TiffTag) (compressedData : List Nat) : List Nat :=
  let imageDataOffset := tiffImageDataOffset tags
  let buf := List.replicate (imageDataOffset + compressedData.length) 0
  let buf := writeList buf 0 (ifdBytes (tiffFinalTags tags))
  let buf := (tiffLayout tags).blocks.foldl
    (fun b blk => writeList b blk.offset (blockBytes blk)) buf
  writeList buf imageDataOffset compressedData

/-- The transparency decision of `canvasToTiff`:
`transparentBackground && this._hasTransparency(rgbaData)`. -/
def canvasToTiffHasT (rgba : List Nat) (transparentBackground : Bool) : Bool :=
  transparentBackground && hasTransparency rgba

/-- The tag table `canvasToTiff` hands to `_buildTiffBuffer` (compression by
`pako.deflate` is external; the compressed payload is a parameter). -/
def canvasToTiffTags (rgba : List Nat) (width height dpi : Nat)
    (transparentBackground : Bool) (compressedData : List Nat)
    (datetime : String) : List TiffTag :=
  createTiffTagEntries width height dpi compressedData.length
    (canvasToTiffHasT rgba transparentBackground) datetime

/-! ## Arithmetic bridges -/

/-- `Math.round` of a nonnegative fraction of naturals is a natural division. -/
theorem jsRound_natCast_div (A B : Nat) (hB : 0 < B) :
    jsRound ((A : ℚ) / B) = ((2 * A + B) / (2 * B) : Nat) := by
  unfold jsRound
  have key : (A : ℚ) / B + 1 / 2 = ((2 * A + B : ℕ) : ℤ) / ((2 * B : ℕ) : ℚ) := by
    have hB' : ((B : ℚ)) ≠ 0 := by exact_mod_cast hB.ne'
    push_cast
    field_simp
    ring
  rw [key, Rat.floor_intCast_div_natCast]
  exact_mod_cast (Int.ofNat_ediv (2 * A + B) (2 * B)).symm

theorem pixelsPerMeter_eq (dpi : Nat) :
    pixelsPerMeter dpi = (2 * (dpi * 393701) + 10000) / 20000 := by
  unfold pixelsPerMeter
  have h : (dpi : ℚ) * (393701 / 10000) = ((dpi * 393701 : ℕ) : ℚ) / ((10000 : ℕ) : ℚ) := by
    push_cast; ring
  rw [h, jsRound_natCast_div _ _ (by norm_num)]
  simp only [Int.toNat_natCast]

theorem pixelsPerMeter_300 : pixelsPerMeter 300 = 11811 := by
  rw [pixelsPerMeter_eq]

/-! ## CRC32 lemmas -/

theorem crcStep_lt {c : Nat} (h : c < 2 ^ 32) : crcStep c < 2 ^ 32 := by
  unfold crcStep
  split
  · exact Nat.xor_lt_two_pow (by norm_num) (by rw [Nat.shiftRight_eq_div_pow]; omega)
  · rw [Nat.shiftRight_eq_div_pow]; omega

theorem crcTableVal_lt (i : Nat) (h : i < 2 ^ 32) : crcTableVal i < 2 ^ 32 := by
  unfold crcTableVal
  -- eight applications of `crcStep`
  simp only [Function.iterate_succ, Function.iterate_zero, Function.comp_apply, id_eq]
  exact crcStep_lt (crcStep_lt (crcStep_lt (crcStep_lt (crcStep_lt (crcStep_lt
    (crcStep_lt (crcStep_lt h)))))))

theorem crc32Update_lt {crc : Nat} (b : Nat) (h : crc < 2 ^ 32) :
    crc32Update crc b < 2 ^ 32 := by
  unfold crc32Update
  refine Nat.xor_lt_two_pow (crcTableVal_lt _ ?_) ?_
  · calc (crc ^^^ b) &&& 0xFF < 256 := by
          have : (0xFF : Nat) = 2 ^ 8 - 1 := by norm_num
          rw [this, Nat.and_pow_two_sub_one_eq_mod]
          exact Nat.mod_lt _ (by norm_num)
         _ < 2 ^ 32 := by norm_num
  · rw [Nat.shiftRight_eq_div_pow]; omega

theorem foldl_crc32Update_lt (data : List Nat) :
    ∀ init : Nat, init < 2 ^ 32 → data.foldl crc32Update init < 2 ^ 32 := by
  induction data with
  | nil => intro init h; simpa using h
  | cons b rest ih => intro init h; exact ih _ (crc32Update_lt b h)

theorem calculateCrc32_lt (data : List Nat) : calculateCrc32 data < 2 ^ 32 := by
  unfold calculateCrc32
  exact Nat.xor_lt_two_pow (foldl_crc32Update_lt data _ (by norm_num)) (by norm_num)

theorem beDecode32_beBytes32 {v : Nat} (h : v < 2 ^ 32) :
    beDecode32 (beBytes32 v) = v := by
  unfold beDecode32 beBytes32
  simp only [List.getD_cons_zero, List.getD_cons_succ]
  omega

/-- C3: `_calculateCrc32` implements the PNG specification's CRC-32 exactly —
the 256-entry table is generated from the reflected polynomial `0xEDB88320`
by 8 conditional XOR-shift steps per index, the running checksum starts at
`0xFFFFFFFF`, is updated one byte at a time as
`table[(crc ^ byte) & 0xFF] ^ (crc >>> 8)` and finalized by complement
(`calculateCrc32` agrees with the independently worded `pngSpecCrc32` on
every byte sequence); consequently, in every injected pHYs chunk the stored
4-byte CRC (bytes 17–20) is the big-endian encoding of the CRC-32 of the
chunk's type and payload bytes (bytes 4–16), and decodes back to it. -/
theorem crc32_matches_png_spec :
    (∀ data : List Nat, calculateCrc32 data = pngSpecCrc32 data) ∧
    (∀ dpi : Nat,
      (physChunk dpi).drop 17 =
        beBytes32 (calculateCrc32 (((physChunk dpi).drop 4).take 13)) ∧
      beDecode32 ((physChunk dpi).drop 17) =
        calculateCrc32 (((physChunk dpi).drop 4).take 13)) := by
  constructor
  · intro data
    unfold calculateCrc32 pngSpecCrc32
    have hstep : crcStep = fun c => if c % 2 = 1 then Nat.xor 0xEDB88320 (c / 2) else c / 2 := by
      funext c
      unfold crcStep
      rw [Nat.shiftRight_eq_div_pow]
      norm_num
      rfl
    have hupd : crc32Update = fun crc b =>
        Nat.xor (crcTableVal (Nat.xor crc b % 256)) (crc / 256) := by
      funext crc b
      unfold crc32Update
      rw [Nat.shiftRight_eq_div_pow]
      have h255 : (0xFF : Nat) = 2 ^ 8 - 1 := by norm_num
      rw [h255, Nat.and_pow_two_sub_one_eq_mod]
      norm_num
      rfl
    simp only [crcTableVal, hstep] at hupd ⊢
    rw [hupd]
    rfl
  · intro dpi
    have hdrop : (physChunk dpi).drop 17 =
        beBytes32 (calculateCrc32 (physChunkType ++ physPayload dpi)) := by
      simp [physChunk, physChunkType, physPayload, beBytes32]
    have htake : ((physChunk dpi).drop 4).take 13 = physChunkType ++ physPayload dpi := by
      simp [physChunk, physChunkType, physPayload, beBytes32]
    refine ⟨by rw [hdrop, htake], ?_⟩
    rw [hdrop, htake, beDecode32_beBytes32 (calculateCrc32_lt _)]

/-! ## PNG injection (C2, C9) -/

/-- C2: for every PNG byte stream passing the injector's validation and every
valid dpi, the injector returns the first 33 bytes (signature + IHDR)
unchanged, then the 21-byte pHYs chunk — big-endian 32-bit length 9, ASCII
`pHYs`, a 9-byte payload of two big-endian 32-bit pixels-per-unit values
both equal to `round(dpi × 39.3701)` followed by unit byte 1, and a 4-byte
big-endian CRC32 — then all remaining input bytes unchanged; the output is
21 bytes longer than the input, and for dpi = 300 both pixels-per-unit
fields equal 11811. -/
theorem addPngDpiChunk_spec (png : List Nat) (dpi : Nat)
    (hvalid : pngInjectValid png) (hdpi0 : 0 < dpi) (hdpi1 : dpi ≤ 2400) :
    addPngDpiChunk png dpi = .ok (png.take 33 ++ physChunk dpi ++ png.drop 33) ∧
    physChunk dpi =
      [0, 0, 0, 9] ++ [0x70, 0x48, 0x59, 0x73] ++
        (beBytes32 (pixelsPerMeter dpi) ++ beBytes32 (pixelsPerMeter dpi) ++ [1]) ++
        beBytes32 (calculateCrc32 (physChunkType ++ physPayload dpi)) ∧
    (physChunk dpi).length = 21 ∧
    (png.take 33 ++ physChunk dpi ++ png.drop 33).length = png.length + 21 ∧
    pixelsPerMeter 300 = 11811 := by
  have hchunk : physChunk dpi =
      [0, 0, 0, 9] ++ [0x70, 0x48, 0x59, 0x73] ++
        (beBytes32 (pixelsPerMeter dpi) ++ beBytes32 (pixelsPerMeter dpi) ++ [1]) ++
        beBytes32 (calculateCrc32 (physChunkType ++ physPayload dpi)) := by
    simp [physChunk, physChunkType, physPayload, beBytes32]
  have hlen : (physChunk dpi).length = 21 := by
    simp [physChunk, physChunkType, physPayload, beBytes32]
  refine ⟨?_, hchunk, hlen, ?_, pixelsPerMeter_300⟩
  · unfold addPngDpiChunk
    rw [if_pos hvalid]
  · have h33 : 33 ≤ png.length := hvalid.1
    simp [hlen]
    omega

/-- A 33-byte stream that passes the injector's validation (signature
prefix byte, correct `PNG` and `IHDR` tags at their checked offsets). -/
def pngSample : List Nat :=
  [0x89, 0x50, 0x4E, 0x47, 0x0D, 0x0A, 0x1A, 0x0A] ++ [0, 0, 0, 13] ++
    [0x49, 0x48, 0x44, 0x52] ++ List.replicate 17 0

theorem addPngDpiChunk_spec_witness :
    pngInjectValid pngSample ∧ 0 < 300 ∧ 300 ≤ 2400 ∧
      addPngDpiChunk pngSample 300 =
        .ok (pngSample.take 33 ++ physChunk 300 ++ pngSample.drop 33) :=
  ⟨by decide, by decide, by decide,
    (addPngDpiChunk_spec pngSample 300 (by decide) (by decide) (by decide)).1⟩

/-- The 8-byte PNG file signature. -/
def pngSignature : List Nat := [0x89, 0x50, 0x4E, 0x47, 0x0D, 0x0A, 0x1A, 0x0A]

/-- C9 (counterexample): a byte stream lacking a valid 8-byte PNG signature
(first byte 0 instead of 0x89) that nevertheless passes the injector's
partial check (`PNG` at offsets 1–3, `IHDR` at offsets 12–15), so the
metadata-injection step does not return the original bytes unchanged — it
splices a pHYs chunk, growing the stream from 33 to 54 bytes. -/
theorem canvasToPngMeta_not_id_on_bad_signature :
    ([0x00, 0x50, 0x4E, 0x47, 0, 0, 0, 0, 0, 0, 0, 0,
      0x49, 0x48, 0x44, 0x52] ++ List.replicate 17 0).take 8 ≠ pngSignature ∧
    (canvasToPngMeta ([0x00, 0x50, 0x4E, 0x47, 0, 0, 0, 0, 0, 0, 0, 0,
      0x49, 0x48, 0x44, 0x52] ++ List.replicate 17 0) 300).length = 54 ∧
    ([0x00, 0x50, 0x4E, 0x47, 0, 0, 0, 0, 0, 0, 0, 0,
      0x49, 0x48, 0x44, 0x52] ++ (List.replicate 17 0 : List Nat)).length = 33 := by
  refine ⟨by decide, ?_, by decide⟩
  have hval : pngInjectValid ([0x00, 0x50, 0x4E, 0x47, 0, 0, 0, 0, 0, 0, 0, 0,
      0x49, 0x48, 0x44, 0x52] ++ List.replicate 17 0) := by decide
  have hlen : (physChunk 300).length = 21 := by
    simp [physChunk, physChunkType, physPayload, beBytes32]
  unfold canvasToPngMeta addPngDpiChunk
  rw [if_pos hval]
  simp [hlen]

/-- C9 (amended): for every input byte sequence failing the injector's
validation — fewer than 33 bytes, or missing the ASCII `PNG` bytes at
offsets 1–3, or missing `IHDR` at offsets 12–15 (the subset of the
signature the injector actually checks) — the metadata-injection step of
`canvasToPng` catches the malformed-PNG error and returns the original
bytes unchanged, so the conversion does not fail. -/
theorem canvasToPngMeta_id_of_invalid (png : List Nat) (dpi : Nat)
    (h : ¬pngInjectValid png) : canvasToPngMeta png dpi = png := by
  unfold canvasToPngMeta addPngDpiChunk
  rw [if_neg h]

theorem canvasToPngMeta_id_of_invalid_witness :
    ¬pngInjectValid [1, 2, 3] ∧ canvasToPngMeta [1, 2, 3] 300 = [1, 2, 3] :=
  ⟨by decide, canvasToPngMeta_id_of_invalid [1, 2, 3] 300 (by decide)⟩

/-! ## Compositor lemmas (C4, C5) -/

theorem blend_eq_div (s a : Nat) (ha : a ≤ 255) :
    blend s a = (2 * (s * a + 255 * (255 - a)) + 255) / 510 := by
  unfold blend
  have key : (s : ℚ) * ((a : ℚ) / 255) + 255 * (1 - (a : ℚ) / 255) =
      ((s * a + 255 * (255 - a) : ℕ) : ℚ) / ((255 : ℕ) : ℚ) := by
    push_cast [Nat.cast_sub ha]
    field_simp
    ring
  rw [key, jsRound_natCast_div _ _ (by norm_num)]
  simp only [Int.toNat_natCast]

theorem blend_alpha255 (s : Nat) : blend s 255 = s := by
  rw [blend_eq_div s 255 le_rfl]
  have h : 2 * (s * 255 + 255 * (255 - 255)) + 255 = 510 * s + 255 := by ring_nf
  rw [h, Nat.mul_add_div (by norm_num)]
  omega

theorem blend_le (s a : Nat) (hs : s ≤ 255) (ha : a ≤ 255) : blend s a ≤ 255 := by
  rw [blend_eq_div s a ha]
  have hN : s * a + 255 * (255 - a) ≤ 255 * 255 := by
    have h1 : s * a ≤ 255 * a := Nat.mul_le_mul_right a hs
    have h2 : 255 * a + 255 * (255 - a) = 255 * 255 := by
      rw [← Nat.mul_add]
      congr 1
      omega
    omega
  calc (2 * (s * a + 255 * (255 - a)) + 255) / 510
      ≤ (2 * (255 * 255) + 255) / 510 := Nat.div_le_div_right (by omega)
    _ = 255 := by norm_num

theorem compositePixels_nil : compositePixels [] = [] := rfl

theorem compositePixels_cons4 (r g b a : Nat) (rest : List Nat) :
    compositePixels (r :: g :: b :: a :: rest) =
      (if a = 255 then [r, g, b] else [blend r a, blend g a, blend b a]) ++
        compositePixels rest := rfl

theorem compositePixels_length :
    ∀ l : List Nat, l.length % 4 = 0 →
      (compositePixels l).length = 3 * (l.length / 4)
  | [] => by simp [compositePixels]
  | [x] => by intro h; simp at h
  | [x, y] => by intro h; simp at h
  | [x, y, z] => by intro h; simp at h
  | r :: g :: b :: a :: rest => by
    intro h
    have ih := compositePixels_length rest (by simp at h ⊢; omega)
    rw [compositePixels_cons4]
    have hchunk : ((if a = 255 then [r, g, b]
        else [blend r a, blend g a, blend b a]) : List Nat).length = 3 := by
      split <;> rfl
    simp only [List.length_append, hchunk, ih, List.length_cons]
    omega

theorem compositePixels_le :
    ∀ l : List Nat, (∀ x ∈ l, x ≤ 255) → ∀ y ∈ compositePixels l, y ≤ 255
  | [] => by simp [compositePixels]
  | [x] => by simp [compositePixels]
  | [x, y] => by simp [compositePixels]
  | [x, y, z] => by simp [compositePixels]
  | r :: g :: b :: a :: rest => by
    intro hmem y hy
    rw [compositePixels_cons4] at hy
    rcases List.mem_append.1 hy with hy | hy
    · have hr : r ≤ 255 := hmem r (by simp)
      have hg : g ≤ 255 := hmem g (by simp)
      have hb : b ≤ 255 := hmem b (by simp)
      have ha : a ≤ 255 := hmem a (by simp)
      split at hy
      · simp only [List.mem_cons, List.not_mem_nil, or_false] at hy
        rcases hy with h | h | h <;> subst h
        · exact hr
        · exact hg
        · exact hb
      · simp only [List.mem_cons, List.not_mem_nil, or_false] at hy
        rcases hy with h | h | h <;> subst h
        · exact blend_le r a hr ha
        · exact blend_le g a hg ha
        · exact blend_le b a hb ha
    · exact compositePixels_le rest (fun x hx => hmem x (by simp [hx])) y hy

theorem compositePixels_getD :
    ∀ (l : List Nat) (p c : Nat), c < 3 → 4 * p + 3 < l.length →
      (compositePixels l).getD (3 * p + c) 0 =
        blend (l.getD (4 * p + c) 0) (l.getD (4 * p + 3) 0)
  | [], p, c => by intro hc hp; simp at hp
  | [x], p, c => by
    intro hc hp; simp only [List.length_cons, List.length_nil] at hp; omega
  | [x, y], p, c => by
    intro hc hp; simp only [List.length_cons, List.length_nil] at hp; omega
  | [x, y, z], p, c => by
    intro hc hp; simp only [List.length_cons, List.length_nil] at hp; omega
  | r :: g :: b :: a :: rest, p, c => by
    intro hc hp
    rw [compositePixels_cons4]
    cases p with
    | zero =>
      simp only [Nat.mul_zero, Nat.zero_add]
      have hchunklen : ((if a = 255 then [r, g, b]
          else [blend r a, blend g a, blend b a]) : List Nat).length = 3 := by
        split <;> rfl
      rw [List.getD_eq_getElem?_getD, List.getElem?_append,
        if_pos (by rw [hchunklen]; exact hc)]
      split
      · subst_vars
        interval_cases c <;> simp [blend_alpha255, List.getD]
      · interval_cases c <;> simp [List.getD]
    | succ p =>
      have h3 : 3 * (p + 1) + c = (3 * p + c) + 3 := by ring
      have h4 : 4 * (p + 1) + c = (4 * p + c) + 4 := by ring
      have h4' : 4 * (p + 1) + 3 = (4 * p + 3) + 4 := by ring
      have ih := compositePixels_getD rest p c hc (by simp at hp; omega)
      have hdrop : ∀ (ch : List Nat), ch.length = 3 →
          (ch ++ compositePixels rest).getD ((3 * p + c) + 3) 0 =
            (compositePixels rest).getD (3 * p + c) 0 := by
        intro ch hch
        rw [List.getD_eq_getElem?_getD, List.getElem?_append_right (by omega),
          hch, ← List.getD_eq_getElem?_getD]
        congr 1
      have hcons4 : ∀ n : Nat, (r :: g :: b :: a :: rest).getD (n + 4) 0 = rest.getD n 0 := by
        intro n
        have h1 : n + 4 = (((n + 1) + 1) + 1) + 1 := by omega
        rw [h1, List.getD_cons_succ, List.getD_cons_succ, List.getD_cons_succ,
          List.getD_cons_succ]
      rw [h3, h4, h4', hdrop _ (by split <;> rfl), hcons4, hcons4]
      exact ih

/-- C4: for every RGBA8 pixel buffer (flat byte list, 4 bytes per pixel,
each byte ≤ 255), compositing with `preserveAlpha = false` returns a tightly
packed 3-bytes-per-pixel buffer in which each color channel equals
`round(src·(alpha/255) + 255·(1 − alpha/255))` (the definition of `blend`),
always in `[0, 255]`; compositing with `preserveAlpha = true` returns the
RGBA data unchanged. -/
theorem rgbaToRgb_spec (rgba : List Nat) (hlen : rgba.length % 4 = 0)
    (hmem : ∀ x ∈ rgba, x ≤ 255) :
    (rgbaToRgb rgba false).length = 3 * (rgba.length / 4) ∧
    (∀ p c, c < 3 → 4 * p + 3 < rgba.length →
      (rgbaToRgb rgba false).getD (3 * p + c) 0 =
        blend (rgba.getD (4 * p + c) 0) (rgba.getD (4 * p + 3) 0)) ∧
    (∀ y ∈ rgbaToRgb rgba false, y ≤ 255) ∧
    rgbaToRgb rgba true = rgba := by
  unfold rgbaToRgb
  exact ⟨compositePixels_length rgba hlen,
    fun p c hc hp => compositePixels_getD rgba p c hc hp,
    compositePixels_le rgba hmem, rfl⟩

theorem rgbaToRgb_spec_witness :
    ([10, 20, 30, 128, 1, 2, 3, 255] : List Nat).length % 4 = 0 ∧
    (∀ x ∈ ([10, 20, 30, 128, 1, 2, 3, 255] : List Nat), x ≤ 255) ∧
    (∀ y ∈ rgbaToRgb [10, 20, 30, 128, 1, 2, 3, 255] false, y ≤ 255) ∧
    rgbaToRgb [10, 20, 30, 128, 1, 2, 3, 255] true = [10, 20, 30, 128, 1, 2, 3, 255] :=
  ⟨by decide, by decide,
    (rgbaToRgb_spec [10, 20, 30, 128, 1, 2, 3, 255] (by decide) (by decide)).2.2.1,
    (rgbaToRgb_spec [10, 20, 30, 128, 1, 2, 3, 255] (by decide) (by decide)).2.2.2⟩

/-- All pixels of a flat RGBA byte list are fully opaque. -/
def allOpaque (rgba : List Nat) : Prop := ∀ a ∈ alphas rgba, a = 255

instance (rgba : List Nat) : Decidable (allOpaque rgba) := by
  unfold allOpaque; infer_instance

theorem rgbaToRgb_dropAlpha :
    ∀ rgba : List Nat, allOpaque rgba → compositePixels rgba = dropAlpha rgba
  | [] => by intro _; rfl
  | [x] => by intro _; rfl
  | [x, y] => by intro _; rfl
  | [x, y, z] => by intro _; rfl
  | r :: g :: b :: a :: rest => by
    intro h
    have ha : a = 255 := h a (by simp [alphas])
    have ih := rgbaToRgb_dropAlpha rest (fun x hx => h x (by simp [alphas, hx]))
    subst ha
    rw [compositePixels_cons4, if_pos rfl]
    simp [dropAlpha, ih]

/-- C5: the opaque fast path agrees with the general blend formula —
`blend s 255 = s` for every source byte — hence compositing a fully opaque
buffer with `preserveAlpha = false` is pixel-identical to dropping every
fourth byte of the RGBA input. -/
theorem opaque_fast_path_refines_blend :
    (∀ s : Nat, blend s 255 = s) ∧
    (∀ rgba : List Nat, allOpaque rgba →
      rgbaToRgb rgba false = dropAlpha rgba) := by
  refine ⟨blend_alpha255, fun rgba h => ?_⟩
  unfold rgbaToRgb
  exact rgbaToRgb_dropAlpha rgba h

theorem opaque_fast_path_refines_blend_witness :
    blend 7 255 = 7 ∧ allOpaque [9, 8, 7, 255, 1, 2, 3, 255] ∧
      rgbaToRgb [9, 8, 7, 255, 1, 2, 3, 255] false = [9, 8, 7, 1, 2, 3] :=
  ⟨opaque_fast_path_refines_blend.1 7, by decide,
    (opaque_fast_path_refines_blend.2 [9, 8, 7, 255, 1, 2, 3, 255] (by decide)).trans
      (by decide)⟩

/-! ## Transparency probe and TIFF tag selection (C6, C7) -/

/-- The first IFD entry carrying a given tag code. -/
def findTag (tags : List TiffTag) (code : Nat) : Option TiffTag :=
  tags.find? (fun t => t.tag == code)

theorem hasTransparency_iff :
    ∀ l : List Nat, hasTransparency l = true ↔ ∃ a ∈ alphas l, a < 255
  | [] => by simp [hasTransparency, alphas]
  | [x] => by simp [hasTransparency, alphas]
  | [x, y] => by simp [hasTransparency, alphas]
  | [x, y, z] => by simp [hasTransparency, alphas]
  | r :: g :: b :: a :: rest => by
    have ih := hasTransparency_iff rest
    simp [hasTransparency, alphas, ih]

theorem findTag_create_277 (w h dpi c : Nat) (hasT : Bool) (dt : String) :
    findTag (createTiffTagEntries w h dpi c hasT dt) 277 =
      some ⟨277, 3, 1, .num (if hasT then 4 else 3)⟩ := by
  cases hasT <;> simp [createTiffTagEntries, findTag]

theorem findTag_create_258 (w h dpi c : Nat) (hasT : Bool) (dt : String) :
    findTag (createTiffTagEntries w h dpi c hasT dt) 258 =
      some ⟨258, 3, if hasT then 4 else 3, .arr (if hasT then [8, 8, 8, 8] else [8, 8, 8])⟩ := by
  cases hasT <;> simp [createTiffTagEntries, findTag]

theorem findTag_create_338 (w h dpi c : Nat) (hasT : Bool) (dt : String) :
    findTag (createTiffTagEntries w h dpi c hasT dt) 338 =
      if hasT then some ⟨338, 3, 1, .num 1⟩ else none := by
  cases hasT <;> simp [createTiffTagEntries, findTag]

/-- C6 (counterexample): a one-pixel buffer with alpha 0 makes the probe
return true, yet when `canvasToTiff` runs with `transparentBackground =
false` the resulting tag table still has SamplesPerPixel = 3 and no
ExtraSamples entry — contradicting the claim that a buffer containing an
alpha-0 pixel yields a 4-sample TIFF with an ExtraSamples tag. -/
theorem alpha_zero_not_four_samples_without_flag :
    hasTransparency [0, 0, 0, 0] = true ∧
    findTag (canvasToTiffTags [0, 0, 0, 0] 1 1 72 false [9, 9] "2024:01:01 00:00:00") 277 =
      some ⟨277, 3, 1, .num 3⟩ ∧
    findTag (canvasToTiffTags [0, 0, 0, 0] 1 1 72 false [9, 9] "2024:01:01 00:00:00") 338 =
      none := by
  refine ⟨by decide, ?_, ?_⟩
  · rw [canvasToTiffTags, findTag_create_277]
    rfl
  · rw [canvasToTiffTags, findTag_create_338]
    rfl

/-- C6 (amended): `hasTransparency` returns true for a pixel buffer iff some
pixel's alpha is < 255; a buffer with all alpha = 255 yields
`hasTransparency = false` and a TIFF with 3 samples per pixel and no
ExtraSamples tag (under either transparency flag), while a buffer containing
a pixel with alpha = 0, when the conversion runs with
`transparentBackground = true`, yields `hasTransparency = true` and a TIFF
with 4 samples per pixel and an ExtraSamples tag (tag 338, value 1)
present. -/
theorem hasTransparency_spec :
    (∀ l : List Nat, hasTransparency l = true ↔ ∃ a ∈ alphas l, a < 255) ∧
    (∀ (l : List Nat) (w h dpi : Nat) (comp : List Nat) (dt : String) (flag : Bool),
      allOpaque l →
        hasTransparency l = false ∧
        findTag (canvasToTiffTags l w h dpi flag comp dt) 277 =
          some ⟨277, 3, 1, .num 3⟩ ∧
        findTag (canvasToTiffTags l w h dpi flag comp dt) 338 = none) ∧
    (∀ (l : List Nat) (w h dpi : Nat) (comp : List Nat) (dt : String),
      (∃ a ∈ alphas l, a = 0) →
        hasTransparency l = true ∧
        findTag (canvasToTiffTags l w h dpi true comp dt) 277 =
          some ⟨277, 3, 1, .num 4⟩ ∧
        findTag (canvasToTiffTags l w h dpi true comp dt) 338 =
          some ⟨338, 3, 1, .num 1⟩) := by
  refine ⟨hasTransparency_iff, ?_, ?_⟩
  · intro l w h dpi comp dt flag hop
    have hfalse : hasTransparency l = false := by
      rw [Bool.eq_false_iff]
      intro htrue
      rcases (hasTransparency_iff l).1 htrue with ⟨a, ha, hlt⟩
      rw [hop a ha] at hlt
      omega
    have hT : canvasToTiffHasT l flag = false := by
      unfold canvasToTiffHasT
      rw [hfalse, Bool.and_false]
    refine ⟨hfalse, ?_, ?_⟩
    · rw [canvasToTiffTags, hT, findTag_create_277]
      rfl
    · rw [canvasToTiffTags, hT, findTag_create_338]
      rfl
  · intro l w h dpi comp dt ⟨a, ha, ha0⟩
    have htrue : hasTransparency l = true :=
      (hasTransparency_iff l).2 ⟨a, ha, by omega⟩
    have hT : canvasToTiffHasT l true = true := by
      unfold canvasToTiffHasT
      rw [htrue, Bool.and_true]
    refine ⟨htrue, ?_, ?_⟩
    · rw [canvasToTiffTags, hT, findTag_create_277]
      rfl
    · rw [canvasToTiffTags, hT, findTag_create_338]
      rfl

theorem hasTransparency_spec_witness :
    allOpaque [1, 2, 3, 255] ∧
    findTag (canvasToTiffTags [1, 2, 3, 255] 1 1 72 false [9, 9] "2024:01:01 00:00:00") 338 =
      none ∧
    (∃ a ∈ alphas [0, 0, 0, 0], a = 0) ∧
    findTag (canvasToTiffTags [0, 0, 0, 0] 1 1 72 true [9, 9] "2024:01:01 00:00:00") 338 =
      some ⟨338, 3, 1, .num 1⟩ :=
  ⟨by decide,
    (hasTransparency_spec.2.1 [1, 2, 3, 255] 1 1 72 [9, 9] "2024:01:01 00:00:00" false
      (by decide)).2.2,
    by decide,
    (hasTransparency_spec.2.2 [0, 0, 0, 0] 1 1 72 [9, 9] "2024:01:01 00:00:00"
      (by decide)).2.2⟩

/-- C7: with `transparentBackground = false`, `canvasToTiff` always encodes
3 samples per pixel with a 3-entry BitsPerSample array and no ExtraSamples
tag, regardless of the buffer's alpha values; the 4-sample RGBA encoding is
selected exactly when `transparentBackground = true` and some pixel's alpha
is < 255. -/
theorem canvasToTiff_flag_gates_probe :
    ∀ (l : List Nat) (w h dpi : Nat) (comp : List Nat) (dt : String),
      findTag (canvasToTiffTags l w h dpi false comp dt) 277 =
        some ⟨277, 3, 1, .num 3⟩ ∧
      findTag (canvasToTiffTags l w h dpi false comp dt) 258 =
        some ⟨258, 3, 3, .arr [8, 8, 8]⟩ ∧
      findTag (canvasToTiffTags l w h dpi false comp dt) 338 = none ∧
      (∀ flag : Bool,
        findTag (canvasToTiffTags l w h dpi flag comp dt) 277 =
            some ⟨277, 3, 1, .num 4⟩ ↔
          (flag = true ∧ hasTransparency l = true)) := by
  intro l w h dpi comp dt
  have hfalse : canvasToTiffHasT l false = false := rfl
  refine ⟨?_, ?_, ?_, ?_⟩
  · rw [canvasToTiffTags, hfalse, findTag_create_277]
    rfl
  · rw [canvasToTiffTags, hfalse, findTag_create_258]
    rfl
  · rw [canvasToTiffTags, hfalse, findTag_create_338]
    rfl
  · intro flag
    rw [canvasToTiffTags, findTag_create_277]
    unfold canvasToTiffHasT
    cases flag <;> cases hht : hasTransparency l <;> simp

/-! ## JFIF patch (C8) -/

theorem setJfifDpi_found (jpeg : List Nat) (dpi i : Nat)
    (h0 : jpeg.getD 0 0 = 0xFF) (h1 : jpeg.getD 1 0 = 0xD8)
    (hf : findJfif jpeg = some i) (hlen : i + 15 < jpeg.length) :
    (setJfifDpi jpeg dpi).length = jpeg.length ∧
    (∀ k, k < i + 11 ∨ i + 15 < k →
      (setJfifDpi jpeg dpi).getD k 0 = jpeg.getD k 0) ∧
    (setJfifDpi jpeg dpi).getD (i + 11) 0 = 1 ∧
    (setJfifDpi jpeg dpi).getD (i + 12) 0 = dpi / 256 % 256 ∧
    (setJfifDpi jpeg dpi).getD (i + 13) 0 = dpi % 256 ∧
    (setJfifDpi jpeg dpi).getD (i + 14) 0 = dpi / 256 % 256 ∧
    (setJfifDpi jpeg dpi).getD (i + 15) 0 = dpi % 256 := by
  have hup : setJfifDpi jpeg dpi =
      ((((jpeg.set (i + 11) 1).set (i + 12) (dpi / 256 % 256)).set
          (i + 13) (dpi % 256)).set (i + 14) (dpi / 256 % 256)).set
        (i + 15) (dpi % 256) := by
    unfold setJfifDpi
    rw [if_pos ⟨h0, h1⟩, hf]
  refine ⟨by simp [hup], ?_, ?_, ?_, ?_, ?_, ?_⟩
  · intro k hk
    rw [hup, List.getD_eq_getElem?_getD,
      List.getElem?_set_ne (by omega), List.getElem?_set_ne (by omega),
      List.getElem?_set_ne (by omega), List.getElem?_set_ne (by omega),
      List.getElem?_set_ne (by omega), ← List.getD_eq_getElem?_getD]
  · rw [hup, List.getD_eq_getElem?_getD,
      List.getElem?_set_ne (by omega), List.getElem?_set_ne (by omega),
      List.getElem?_set_ne (by omega), List.getElem?_set_ne (by omega),
      List.getElem?_set_self (by omega)]
    rfl
  · rw [hup, List.getD_eq_getElem?_getD,
      List.getElem?_set_ne (by omega), List.getElem?_set_ne (by omega),
      List.getElem?_set_ne (by omega),
      List.getElem?_set_self (by simp only [List.length_set]; omega)]
    rfl
  · rw [hup, List.getD_eq_getElem?_getD,
      List.getElem?_set_ne (by omega), List.getElem?_set_ne (by omega),
      List.getElem?_set_self (by simp only [List.length_set]; omega)]
    rfl
  · rw [hup, List.getD_eq_getElem?_getD,
      List.getElem?_set_ne (by omega),
      List.getElem?_set_self (by simp only [List.length_set]; omega)]
    rfl
  · rw [hup, List.getD_eq_getElem?_getD,
      List.getElem?_set_self (by simp only [List.length_set]; omega)]
    rfl

/-- A 12-byte stream whose APPn scan finds the `JFIF\0` signature at offset
2 but which ends before byte 13 = 2 + 11. -/
def jfifTruncated : List Nat :=
  [0xFF, 0xD8, 0xFF, 0xE0, 0, 0, 0x4A, 0x46, 0x49, 0x46, 0, 0]

/-- C8 (counterexample): on a truncated stream the scan still finds the
JFIF signature at `i = 2` (SOI present, `JFIF\0` at bytes 6–10 of the APP0
segment), but the patch writes land beyond the end of the stream and are
dropped, so the result equals the input: no byte `i + 11` is set to 1 —
indeed the stream has no byte 13 at all. -/
theorem setJfifDpi_truncated_unchanged :
    findJfif jfifTruncated = some 2 ∧
    jfifTruncated.getD 0 0 = 0xFF ∧ jfifTruncated.getD 1 0 = 0xD8 ∧
    setJfifDpi jfifTruncated 150 = jfifTruncated ∧
    jfifTruncated.length = 12 ∧
    (setJfifDpi jfifTruncated 150)[2 + 11]? = none := by decide

/-- C8 (amended): for every JPEG byte stream beginning with the SOI marker
`0xFFD8` whose APPn scan finds the ASCII signature `JFIF\0` at bytes 4–8 of
a segment starting at `i`, provided the stream extends through byte
`i + 15`, `_setJfifDpi` returns a stream of the same length in which exactly
byte `i + 11` is set to 1 and bytes `i+12..13` and `i+14..15` are set to the
big-endian 16-bit dpi (X then Y), all other bytes unchanged; for dpi = 150
the five patched bytes equal `[1, 0x00, 0x96, 0x00, 0x96]`. -/
theorem setJfifDpi_spec (jpeg : List Nat) (dpi i : Nat)
    (h0 : jpeg.getD 0 0 = 0xFF) (h1 : jpeg.getD 1 0 = 0xD8)
    (hf : findJfif jpeg = some i) (hlen : i + 15 < jpeg.length) :
    (setJfifDpi jpeg dpi).length = jpeg.length ∧
    (∀ k, k < i + 11 ∨ i + 15 < k →
      (setJfifDpi jpeg dpi).getD k 0 = jpeg.getD k 0) ∧
    (setJfifDpi jpeg dpi).getD (i + 11) 0 = 1 ∧
    (setJfifDpi jpeg dpi).getD (i + 12) 0 = dpi / 256 % 256 ∧
    (setJfifDpi jpeg dpi).getD (i + 13) 0 = dpi % 256 ∧
    (setJfifDpi jpeg dpi).getD (i + 14) 0 = dpi / 256 % 256 ∧
    (setJfifDpi jpeg dpi).getD (i + 15) 0 = dpi % 256 ∧
    ((setJfifDpi jpeg 150).getD (i + 11) 0 = 1 ∧
      (setJfifDpi jpeg 150).getD (i + 12) 0 = 0x00 ∧
      (setJfifDpi jpeg 150).getD (i + 13) 0 = 0x96 ∧
      (setJfifDpi jpeg 150).getD (i + 14) 0 = 0x00 ∧
      (setJfifDpi jpeg 150).getD (i + 15) 0 = 0x96) := by
  obtain ⟨ha, hb, hc, hd, he, hg, hh⟩ := setJfifDpi_found jpeg dpi i h0 h1 hf hlen
  obtain ⟨_, _, hc', hd', he', hg', hh'⟩ := setJfifDpi_found jpeg 150 i h0 h1 hf hlen
  exact ⟨ha, hb, hc, hd, he, hg, hh, hc', hd', he', hg', hh'⟩

/-- A well-formed 20-byte JPEG prefix: SOI then a full APP0/JFIF segment. -/
def jfifSample : List Nat :=
  [0xFF, 0xD8, 0xFF, 0xE0, 0x00, 0x10, 0x4A, 0x46, 0x49, 0x46, 0x00,
   0x01, 0x01, 0x01, 0x00, 0x48, 0x00, 0x48, 0x00, 0x00]

theorem setJfifDpi_spec_witness :
    jfifSample.getD 0 0 = 0xFF ∧ jfifSample.getD 1 0 = 0xD8 ∧
    findJfif jfifSample = some 2 ∧ 2 + 15 < jfifSample.length ∧
    (setJfifDpi jfifSample 150).getD (2 + 11) 0 = 1 :=
  ⟨by decide, by decide, by decide, by decide,
    (setJfifDpi_spec jfifSample 150 2 (by decide) (by decide) (by decide)
      (by decide)).2.2.1⟩

/-! ## Input validation (C10) -/

/-- C10 (counterexample): with a well-formed SVG, format `png` and quality 1,
a dpi of NaN is NOT a number in (0, 2400], yet `_validateInputs` raises no
error — `typeof NaN === 'number'` and both comparisons `NaN <= 0` and
`NaN > 2400` are false — so the conversion proceeds instead of failing with
InvalidDpi as the claim requires. -/
theorem validateInputs_accepts_nan_dpi :
    validateInputs true "png" (some .nan) (some (.fin 1)) = .ok () ∧
    (¬∃ q : ℚ, (JSNum.nan = JSNum.fin q) ∧ 0 < q ∧ q ≤ 2400) := by
  constructor
  · rfl
  · rintro ⟨q, hq, -, -⟩
    cases hq

theorem exists_error_iff_not_ok (v : Except ValidationErr Unit) :
    (∃ e, v = .error e) ↔ ¬(v = .ok ()) := by
  cases v with
  | error e => simp
  | ok u => cases u; simp

theorem validateInputs_ok_iff (svgOk : Bool) (format : String)
    (dpi quality : Option JSNum) :
    validateInputs svgOk format dpi quality = .ok () ↔
      (svgOk = true ∧ supportedFormats.contains (strToLower format) = true ∧
        (∃ d, dpi = some d ∧ jsLe d 0 = false ∧ jsGt d 2400 = false) ∧
        (∃ q, quality = some q ∧ jsLt q 0 = false ∧ jsGt q 1 = false)) := by
  unfold validateInputs
  cases svgOk with
  | false => simp
  | true =>
    rw [if_neg (by simp)]
    by_cases hfmt : supportedFormats.contains (strToLower format) = true
    · have hfmt2 : strToLower format ∈ supportedFormats := by simpa using hfmt
      rw [if_neg (by simp [hfmt2])]
      cases dpi with
      | none => simp [hfmt]
      | some d =>
        dsimp only
        cases hd : (jsLe d 0 || jsGt d 2400) with
        | true =>
          rw [if_pos (by simp [hd])]
          simp only [Bool.or_eq_true] at hd
          constructor
          · intro h
            cases h
          · rintro ⟨-, -, ⟨d2, hd2, hd2a, hd2b⟩, -⟩
            cases hd2
            rcases hd with h | h
            · rw [h] at hd2a; cases hd2a
            · rw [h] at hd2b; cases hd2b
        | false =>
          rw [if_neg (by simp [hd])]
          simp only [Bool.or_eq_false_iff] at hd
          cases quality with
          | none => simp [hfmt]
          | some q =>
            dsimp only
            cases hq : (jsLt q 0 || jsGt q 1) with
            | true =>
              rw [if_pos (by simp [hq])]
              simp only [Bool.or_eq_true] at hq
              constructor
              · intro h
                cases h
              · rintro ⟨-, -, -, ⟨q2, hq2, hq2a, hq2b⟩⟩
                cases hq2
                rcases hq with h | h
                · rw [h] at hq2a; cases hq2a
                · rw [h] at hq2b; cases hq2b
            | false =>
              rw [if_neg (by simp [hq])]
              simp only [Bool.or_eq_false_iff] at hq
              simp only [true_and, hfmt]
              constructor
              · intro _
                exact ⟨⟨d, rfl, hd.1, hd.2⟩, ⟨q, rfl, hq.1, hq.2⟩⟩
              · intro _
                trivial
    · have hfmt2 : strToLower format ∉ supportedFormats := by
        intro hmem
        exact hfmt (by simpa using hmem)
      rw [if_pos (by simp [hfmt2])]
      constructor
      · intro h
        cases h
      · rintro ⟨-, hc, -⟩
        exact absurd hc hfmt

theorem convertSvgModel_validation_error_iff {α : Type} (svgOk : Bool)
    (format : String) (dpi quality : Option JSNum) (pipeline : Except String α)
    (e : ValidationErr) :
    convertSvgModel svgOk format dpi quality pipeline =
        .error (.validation e) ↔
      validateInputs svgOk format dpi quality = .error e := by
  unfold convertSvgModel
  cases hv : validateInputs svgOk format dpi quality with
  | error e2 => simp
  | ok u =>
    cases u
    cases pipeline <;> simp

/-- C10 (amended): `convertSvg` raises an input-validation error — before
any rasterization or encoding, with no output produced (the result is
independent of the downstream pipeline) — exactly when the SVG check fails
(InvalidSvg), or the lowercased format is not in {png, jpg, jpeg, tiff, tif}
(UnsupportedFormat), or dpi is not a number or compares `<= 0` or `> 2400`
under JavaScript semantics (InvalidDpi), or quality is not a number or
compares `< 0` or `> 1` (InvalidQuality); NaN compares false against every
bound, so a NaN dpi or quality is accepted. Checks run in source order, the
first failing one naming the error. -/
theorem convertSvg_validation_spec {α : Type} (svgOk : Bool) (format : String)
    (dpi quality : Option JSNum) (pipeline : Except String α) :
    ((∃ e, convertSvgModel svgOk format dpi quality pipeline =
        .error (.validation e)) ↔
      ¬(svgOk = true ∧ supportedFormats.contains (strToLower format) = true ∧
        (∃ d, dpi = some d ∧ jsLe d 0 = false ∧ jsGt d 2400 = false) ∧
        (∃ q, quality = some q ∧ jsLt q 0 = false ∧ jsGt q 1 = false))) ∧
    (∀ e, convertSvgModel svgOk format dpi quality pipeline =
        .error (.validation e) →
      ∀ {β : Type} (pipeline2 : Except String β),
        convertSvgModel svgOk format dpi quality pipeline2 =
          .error (.validation e)) ∧
    (svgOk = false →
      convertSvgModel svgOk format dpi quality pipeline =
        .error (.validation .invalidSvg)) ∧
    (svgOk = true → supportedFormats.contains (strToLower format) = false →
      convertSvgModel svgOk format dpi quality pipeline =
        .error (.validation .unsupportedFormat)) ∧
    (svgOk = true → supportedFormats.contains (strToLower format) = true →
      (dpi = none ∨ ∃ d, dpi = some d ∧ (jsLe d 0 = true ∨ jsGt d 2400 = true)) →
      convertSvgModel svgOk format dpi quality pipeline =
        .error (.validation .invalidDpi)) ∧
    (svgOk = true → supportedFormats.contains (strToLower format) = true →
      (∃ d, dpi = some d ∧ jsLe d 0 = false ∧ jsGt d 2400 = false) →
      (quality = none ∨ ∃ q, quality = some q ∧ (jsLt q 0 = true ∨ jsGt q 1 = true)) →
      convertSvgModel svgOk format dpi quality pipeline =
        .error (.validation .invalidQuality)) := by
  refine ⟨?_, ?_, ?_, ?_, ?_, ?_⟩
  · rw [exists_congr (convertSvgModel_validation_error_iff svgOk format dpi
      quality pipeline), exists_error_iff_not_ok, validateInputs_ok_iff]
  · intro e he β pipeline2
    rw [convertSvgModel_validation_error_iff] at he
    rw [convertSvgModel_validation_error_iff]
    exact he
  · intro hsvg
    subst hsvg
    rfl
  · intro hsvg hfmt
    subst hsvg
    have hfmt2 : strToLower format ∉ supportedFormats := by simpa using hfmt
    rw [convertSvgModel_validation_error_iff]
    unfold validateInputs
    rw [if_neg (by simp), if_pos (by simp [hfmt2])]
  · intro hsvg hfmt hdpi
    subst hsvg
    have hfmt2 : strToLower format ∈ supportedFormats := by simpa using hfmt
    rw [convertSvgModel_validation_error_iff]
    unfold validateInputs
    rw [if_neg (by simp), if_neg (by simp [hfmt2])]
    rcases hdpi with hdpi | ⟨d, hd, hbad⟩
    · subst hdpi
      rfl
    · subst hd
      dsimp only
      rw [if_pos (by rcases hbad with h | h <;> simp [h])]
  · intro hsvg hfmt ⟨d, hd, hd1, hd2⟩ hq
    subst hsvg
    subst hd
    have hfmt2 : strToLower format ∈ supportedFormats := by simpa using hfmt
    rw [convertSvgModel_validation_error_iff]
    unfold validateInputs
    rw [if_neg (by simp), if_neg (by simp [hfmt2])]
    dsimp only
    rw [if_neg (by simp [hd1, hd2])]
    rcases hq with hq | ⟨q, hq, hbad⟩
    · subst hq
      rfl
    · subst hq
      dsimp only
      rw [if_pos (by rcases hbad with h | h <;> simp [h])]

theorem convertSvg_validation_spec_witness :
    (false = false) ∧
    convertSvgModel false "png" (some (.fin 72)) (some (.fin 1))
        (Except.ok ([] : List Nat)) =
      .error (.validation .invalidSvg) :=
  ⟨rfl, (convertSvg_validation_spec false "png" (some (.fin 72)) (some (.fin 1))
    (Except.ok ([] : List Nat))).2.2.1 rfl⟩

/-! ## TIFF layout lemmas (C1) -/

theorem padEven_ge (n : Nat) : n ≤ padEven n := by
  unfold padEven
  split <;> omega

theorem padEven_even (n : Nat) : padEven n % 2 = 0 := by
  unfold padEven
  split <;> omega

theorem adjustAscii_tag (t : TiffTag) : (adjustAscii t).tag = t.tag := by
  unfold adjustAscii
  split
  · cases t.value <;> rfl
  · rfl

theorem adjustAscii_type (t : TiffTag) : (adjustAscii t).type = t.type := by
  unfold adjustAscii
  split
  · cases t.value <;> rfl
  · rfl

theorem adjustAscii_of_type_ne (t : TiffTag) (h : t.type ≠ 2) :
    adjustAscii t = t := by
  unfold adjustAscii
  rw [if_neg h]

theorem layoutTags_cons_big (t : TiffTag) (rest : List TiffTag) (off : Nat)
    (hbig : 4 < typeSize (adjustAscii t).type * (adjustAscii t).count) :
    layoutTags (t :: rest) off =
      ⟨{ adjustAscii t with value := .num off } ::
          (layoutTags rest
            (padEven (off + typeSize (adjustAscii t).type * (adjustAscii t).count))).tags,
        ⟨off, (adjustAscii t).value, (adjustAscii t).type⟩ ::
          (layoutTags rest
            (padEven (off + typeSize (adjustAscii t).type * (adjustAscii t).count))).blocks,
        (layoutTags rest
          (padEven (off + typeSize (adjustAscii t).type * (adjustAscii t).count))).next⟩ := by
  simp only [layoutTags]
  rw [if_pos hbig]

theorem layoutTags_cons_small (t : TiffTag) (rest : List TiffTag) (off : Nat)
    (hsmall : ¬4 < typeSize (adjustAscii t).type * (adjustAscii t).count) :
    layoutTags (t :: rest) off =
      ⟨adjustAscii t :: (layoutTags rest off).tags,
        (layoutTags rest off).blocks, (layoutTags rest off).next⟩ := by
  simp only [layoutTags]
  rw [if_neg hsmall]

theorem layoutTags_next_le (ts : List TiffTag) :
    ∀ off : Nat, off ≤ (layoutTags ts off).next := by
  induction ts with
  | nil => intro off; exact le_rfl
  | cons t rest ih =>
    intro off
    by_cases hbig : 4 < typeSize (adjustAscii t).type * (adjustAscii t).count
    · rw [layoutTags_cons_big t rest off hbig]
      exact le_trans (le_trans (by omega) (padEven_ge _)) (ih _)
    · rw [layoutTags_cons_small t rest off hbig]
      exact ih off

theorem layoutTags_tags_length (ts : List TiffTag) :
    ∀ off : Nat, (layoutTags ts off).tags.length = ts.length := by
  induction ts with
  | nil => intro off; rfl
  | cons t rest ih =>
    intro off
    by_cases hbig : 4 < typeSize (adjustAscii t).type * (adjustAscii t).count
    · rw [layoutTags_cons_big t rest off hbig]
      simp [ih]
    · rw [layoutTags_cons_small t rest off hbig]
      simp [ih]

theorem layoutTags_map_tag (ts : List TiffTag) :
    ∀ off : Nat,
      (layoutTags ts off).tags.map (fun t => t.tag) = ts.map (fun t => t.tag) := by
  induction ts with
  | nil => intro off; rfl
  | cons t rest ih =>
    intro off
    by_cases hbig : 4 < typeSize (adjustAscii t).type * (adjustAscii t).count
    · rw [layoutTags_cons_big t rest off hbig]
      simp [ih, adjustAscii_tag]
    · rw [layoutTags_cons_small t rest off hbig]
      simp [ih, adjustAscii_tag]

theorem layoutTags_big_entries (ts : List TiffTag) :
    ∀ off : Nat, off % 2 = 0 →
      ∀ t2 ∈ (layoutTags ts off).tags, 4 < typeSize t2.type * t2.count →
        ∃ o, t2.value = .num o ∧ off ≤ o ∧ o % 2 = 0 ∧
          o + typeSize t2.type * t2.count ≤ (layoutTags ts off).next := by
  induction ts with
  | nil => intro off _ t2 ht2; simp [layoutTags] at ht2
  | cons t rest ih =>
    intro off hoff t2 ht2 hbig2
    by_cases hbig : 4 < typeSize (adjustAscii t).type * (adjustAscii t).count
    · rw [layoutTags_cons_big t rest off hbig] at ht2 ⊢
      simp only [List.mem_cons] at ht2
      rcases ht2 with rfl | ht2
      · refine ⟨off, rfl, le_rfl, hoff, ?_⟩
        exact le_trans (padEven_ge _)
          (layoutTags_next_le rest
            (padEven (off + typeSize (adjustAscii t).type * (adjustAscii t).count)))
      · obtain ⟨o, hv, h1, h2, h3⟩ := ih _ (padEven_even _) t2 ht2 hbig2
        exact ⟨o, hv, le_trans (le_trans (by omega) (padEven_ge _)) h1, h2, h3⟩
    · rw [layoutTags_cons_small t rest off hbig] at ht2 ⊢
      simp only [List.mem_cons] at ht2
      rcases ht2 with rfl | ht2
      · exact absurd hbig2 hbig
      · exact ih off hoff t2 ht2 hbig2

theorem layoutTags_blocks_even (ts : List TiffTag) :
    ∀ off : Nat, off % 2 = 0 →
      ∀ b ∈ (layoutTags ts off).blocks, b.offset % 2 = 0 := by
  induction ts with
  | nil => intro off _ b hb; simp [layoutTags] at hb
  | cons t rest ih =>
    intro off hoff b hb
    by_cases hbig : 4 < typeSize (adjustAscii t).type * (adjustAscii t).count
    · rw [layoutTags_cons_big t rest off hbig] at hb
      simp only [List.mem_cons] at hb
      rcases hb with rfl | hb
      · exact hoff
      · exact ih _ (padEven_even _) b hb
    · rw [layoutTags_cons_small t rest off hbig] at hb
      exact ih off hoff b hb

theorem layoutTags_getD_inline (ts : List TiffTag) :
    ∀ (off i : Nat), i < ts.length → (ts.getD i default).type ≠ 2 →
      ¬4 < typeSize (ts.getD i default).type * (ts.getD i default).count →
      (layoutTags ts off).tags.getD i default = ts.getD i default := by
  induction ts with
  | nil => intro off i hi; simp at hi
  | cons t rest ih =>
    intro off i hi htype hsmall2
    by_cases hbig : 4 < typeSize (adjustAscii t).type * (adjustAscii t).count
    · rw [layoutTags_cons_big t rest off hbig]
      cases i with
      | zero =>
        simp only [List.getD_cons_zero] at htype hsmall2
        rw [adjustAscii_of_type_ne t htype] at hbig
        exact absurd hbig hsmall2
      | succ i =>
        simp only [List.getD_cons_succ] at htype hsmall2 ⊢
        exact ih _ i (by simpa using hi) htype hsmall2
    · rw [layoutTags_cons_small t rest off hbig]
      cases i with
      | zero =>
        simp only [List.getD_cons_zero] at htype hsmall2 ⊢
        exact adjustAscii_of_type_ne t htype
      | succ i =>
        simp only [List.getD_cons_succ] at htype hsmall2 ⊢
        exact ih off i (by simpa using hi) htype hsmall2

theorem patchStripOffsets_eq_set (ts : List TiffTag) :
    ∀ (v i : Nat), i < ts.length →
      (∀ j, j < i → (ts.getD j default).tag ≠ 273) →
      (ts.getD i default).tag = 273 →
      patchStripOffsets ts v = ts.set i { ts.getD i default with value := .num v } := by
  induction ts with
  | nil => intro v i hi; simp at hi
  | cons t rest ih =>
    intro v i hi hbefore hat
    cases i with
    | zero =>
      simp only [List.getD_cons_zero] at hat
      unfold patchStripOffsets
      rw [if_pos hat]
      rfl
    | succ i =>
      have ht : t.tag ≠ 273 := by
        have := hbefore 0 (by omega)
        simpa using this
      unfold patchStripOffsets
      rw [if_neg ht]
      simp only [List.getD_cons_succ] at hat ⊢
      rw [ih v i (by simpa using hi)
        (fun j hj => by simpa using hbefore (j + 1) (by omega)) hat]
      rfl

/-! ## Byte-buffer write lemmas (C1) -/

theorem writeList_length (data : List Nat) :
    ∀ (buf : List Nat) (off : Nat), (writeList buf off data).length = buf.length := by
  induction data with
  | nil => intro buf off; rfl
  | cons b rest ih =>
    intro buf off
    unfold writeList
    rw [ih]
    simp

theorem writeList_getElem?_lt (data : List Nat) :
    ∀ (buf : List Nat) (off i : Nat), i < off →
      (writeList buf off data)[i]? = buf[i]? := by
  induction data with
  | nil => intro buf off i _; rfl
  | cons b rest ih =>
    intro buf off i hi
    unfold writeList
    rw [ih _ _ _ (by omega), List.getElem?_set_ne (by omega)]

theorem writeList_drop (data : List Nat) :
    ∀ (buf : List Nat) (off : Nat), buf.length = off + data.length →
      (∀ b ∈ data, b < 256) → (writeList buf off data).drop off = data := by
  induction data with
  | nil =>
    intro buf off hlen _
    unfold writeList
    simp only [List.length_nil] at hlen
    exact List.drop_of_length_le (by omega)
  | cons b rest ih =>
    intro buf off hlen hmem
    unfold writeList
    simp only [List.length_cons] at hlen
    have hlen2 : (buf.set off (b % 256)).length = (off + 1) + rest.length := by
      simp only [List.length_set]
      omega
    have htail := ih (buf.set off (b % 256)) (off + 1) hlen2
      (fun x hx => hmem x (by simp [hx]))
    have hlenw : off < (writeList (buf.set off (b % 256)) (off + 1) rest).length := by
      rw [writeList_length]
      simp only [List.length_set]
      omega
    rw [List.drop_eq_getElem_cons hlenw, htail]
    have hhead : (writeList (buf.set off (b % 256)) (off + 1) rest)[off]? =
        some (b % 256) := by
      rw [writeList_getElem?_lt _ _ _ _ (by omega)]
      exact List.getElem?_set_self (by omega)
    have hb : b % 256 = b := Nat.mod_eq_of_lt (hmem b (by simp))
    congr 1
    have h2 : (writeList (buf.set off (b % 256)) (off + 1) rest)[off] =
        b % 256 := List.getElem_eq_iff.mpr hhead
    rw [h2, hb]

theorem foldl_writeList_length (blocks : List DataBlock) :
    ∀ buf : List Nat,
      (blocks.foldl (fun b blk => writeList b blk.offset (blockBytes blk)) buf).length =
        buf.length := by
  induction blocks with
  | nil => intro buf; rfl
  | cons blk rest ih =>
    intro buf
    simp only [List.foldl_cons]
    rw [ih, writeList_length]

theorem buildTiffBuffer_length (tags : List TiffTag) (compressed : List Nat) :
    (buildTiffBuffer tags compressed).length =
      tiffImageDataOffset tags + compressed.length := by
  unfold buildTiffBuffer
  rw [writeList_length, foldl_writeList_length, writeList_length]
  simp

theorem buildTiffBuffer_drop (tags : List TiffTag) (compressed : List Nat)
    (hbytes : ∀ b ∈ compressed, b < 256) :
    (buildTiffBuffer tags compressed).drop (tiffImageDataOffset tags) = compressed := by
  unfold buildTiffBuffer
  apply writeList_drop
  · rw [foldl_writeList_length, writeList_length]
    simp
  · exact hbytes

theorem tag_getD_of_map (l : List TiffTag) (j : Nat) (hj : j < l.length) :
    (l.getD j default).tag = (l.map (fun t => t.tag)).getD j 0 := by
  rw [List.getD_eq_getElem?_getD, List.getD_eq_getElem?_getD,
    List.getElem?_eq_getElem hj, List.getElem?_eq_getElem (by simpa using hj)]
  simp

theorem createTags_length (w h dpi c : Nat) (hasT : Bool) (dt : String) :
    (createTiffTagEntries w h dpi c hasT dt).length = if hasT then 14 else 13 := by
  cases hasT <;> rfl

theorem createTags_map_tag (w h dpi c : Nat) (hasT : Bool) (dt : String) :
    (createTiffTagEntries w h dpi c hasT dt).map (fun t => t.tag) =
      [256, 257, 258, 259, 262, 273, 277, 279, 282, 283, 296, 305, 306] ++
        (if hasT then [338] else []) := by
  cases hasT <;> rfl

theorem createTags_getD5 (w h dpi c : Nat) (hasT : Bool) (dt : String) :
    (createTiffTagEntries w h dpi c hasT dt).getD 5 default = ⟨273, 4, 1, .num 0⟩ := by
  cases hasT <;> rfl

theorem createTags_getD7 (w h dpi c : Nat) (hasT : Bool) (dt : String) :
    (createTiffTagEntries w h dpi c hasT dt).getD 7 default =
      ⟨279, 4, 1, .num c⟩ := by
  cases hasT <;> rfl

/-- C1: for every tag table produced by the TIFF encoder
(`_createTiffTagEntries`, any dimensions/dpi/transparency/date) and every
compressed pixel payload, in the file built by `_buildTiffBuffer` every IFD
entry whose encoded value length (type byte-size × count) exceeds 4 bytes
has its value field replaced by an out-of-line offset `o` satisfying
IFD-end `(8 + 2 + 12·numTags + 4) ≤ o < strip offset`, with each data block
16-bit aligned (even start offset, produced by the one-byte pad rule); the
StripOffsets entry (index 5, tag 273) holds exactly the byte offset at which
the compressed pixel data is written (the buffer's bytes from that offset to
the end are the payload), and the StripByteCounts entry (index 7, tag 279)
holds the compressed payload's byte length exactly. -/
theorem buildTiffBuffer_spec (w h dpi : Nat) (hasT : Bool) (dt : String)
    (compressed : List Nat) (hbytes : ∀ b ∈ compressed, b < 256) :
    (∀ t ∈ tiffFinalTags (createTiffTagEntries w h dpi compressed.length hasT dt),
      4 < typeSize t.type * t.count →
        ∃ o, t.value = .num o ∧
          ifdEnd (createTiffTagEntries w h dpi compressed.length hasT dt).length ≤ o ∧
          o < tiffImageDataOffset (createTiffTagEntries w h dpi compressed.length hasT dt) ∧
          o % 2 = 0) ∧
    (∀ b ∈ (tiffLayout (createTiffTagEntries w h dpi compressed.length hasT dt)).blocks,
      b.offset % 2 = 0) ∧
    (tiffFinalTags (createTiffTagEntries w h dpi compressed.length hasT dt)).map
        (fun t => t.tag) =
      [256, 257, 258, 259, 262, 273, 277, 279, 282, 283, 296, 305, 306] ++
        (if hasT then [338] else []) ∧
    (tiffFinalTags (createTiffTagEntries w h dpi compressed.length hasT dt)).getD 5
        default =
      ⟨273, 4, 1,
        .num (tiffImageDataOffset (createTiffTagEntries w h dpi compressed.length hasT dt))⟩ ∧
    (tiffFinalTags (createTiffTagEntries w h dpi compressed.length hasT dt)).getD 7
        default =
      ⟨279, 4, 1, .num compressed.length⟩ ∧
    (buildTiffBuffer (createTiffTagEntries w h dpi compressed.length hasT dt)
        compressed).length =
      tiffImageDataOffset (createTiffTagEntries w h dpi compressed.length hasT dt) +
        compressed.length ∧
    (buildTiffBuffer (createTiffTagEntries w h dpi compressed.length hasT dt)
        compressed).drop
      (tiffImageDataOffset (createTiffTagEntries w h dpi compressed.length hasT dt)) =
      compressed := by
  have hTlen := createTags_length w h dpi compressed.length hasT dt
  have hTmap := createTags_map_tag w h dpi compressed.length hasT dt
  have hT5 := createTags_getD5 w h dpi compressed.length hasT dt
  have hT7 := createTags_getD7 w h dpi compressed.length hasT dt
  generalize hTe : createTiffTagEntries w h dpi compressed.length hasT dt = T at *
  have h13 : 13 ≤ T.length := by rw [hTlen]; split <;> omega
  have hifd_even : ifdEnd T.length % 2 = 0 := by unfold ifdEnd; omega
  have hLtags_len : (tiffLayout T).tags.length = T.length := layoutTags_tags_length T _
  have hLmap : (tiffLayout T).tags.map (fun t => t.tag) = T.map (fun t => t.tag) :=
    layoutTags_map_tag T _
  have hL5 : (tiffLayout T).tags.getD 5 default = ⟨273, 4, 1, .num 0⟩ := by
    rw [tiffLayout,
      layoutTags_getD_inline T _ 5 (by omega) (by rw [hT5]; decide)
        (by rw [hT5]; decide), hT5]
  have hL7 : (tiffLayout T).tags.getD 7 default = ⟨279, 4, 1, .num compressed.length⟩ := by
    rw [tiffLayout,
      layoutTags_getD_inline T _ 7 (by omega) (by rw [hT7]; simp)
        (by rw [hT7]; simp [typeSize]), hT7]
  have hbefore : ∀ j, j < 5 → ((tiffLayout T).tags.getD j default).tag ≠ 273 := by
    intro j hj
    rw [tag_getD_of_map (tiffLayout T).tags j (by omega), hLmap, hTmap,
      List.getD_append _ _ _ _ (by simp; omega)]
    interval_cases j <;> decide
  have hat : ((tiffLayout T).tags.getD 5 default).tag = 273 := by rw [hL5]
  have hpatch : tiffFinalTags T =
      (tiffLayout T).tags.set 5 ⟨273, 4, 1, .num (tiffImageDataOffset T)⟩ := by
    rw [tiffFinalTags,
      patchStripOffsets_eq_set (tiffLayout T).tags (tiffImageDataOffset T) 5
        (by omega) hbefore hat, hL5]
  refine ⟨?_, ?_, ?_, ?_, ?_, ?_, ?_⟩
  · intro t ht hbig
    rw [hpatch] at ht
    rcases List.mem_or_eq_of_mem_set ht with ht | rfl
    · obtain ⟨o, hv, h1, h2, h3⟩ :=
        layoutTags_big_entries T (ifdEnd T.length) hifd_even t ht hbig
      exact ⟨o, hv, h1, by
        have : o + typeSize t.type * t.count ≤ tiffImageDataOffset T := h3
        omega, h2⟩
    · simp [typeSize] at hbig
  · exact layoutTags_blocks_even T (ifdEnd T.length) hifd_even
  · rw [hpatch, List.map_set, hLmap, hTmap]
    have h5tag : ([256, 257, 258, 259, 262, 273, 277, 279, 282, 283, 296, 305, 306] ++
        (if hasT then [338] else []) : List Nat).set 5 273 =
        [256, 257, 258, 259, 262, 273, 277, 279, 282, 283, 296, 305, 306] ++
          (if hasT then [338] else []) := by
      cases hasT <;> rfl
    exact h5tag
  · rw [hpatch, List.getD_eq_getElem?_getD, List.getElem?_set_self (by omega)]
    rfl
  · rw [hpatch, List.getD_eq_getElem?_getD, List.getElem?_set_ne (by omega),
      ← List.getD_eq_getElem?_getD, hL7]
  · exact buildTiffBuffer_length T compressed
  · exact buildTiffBuffer_drop T compressed hbytes

theorem buildTiffBuffer_spec_witness :
    (∀ b ∈ ([9, 8, 7, 6, 5] : List Nat), b < 256) ∧
    (buildTiffBuffer (createTiffTagEntries 2 2 72 5 false "2024:01:01 00:00:00")
        [9, 8, 7, 6, 5]).drop
      (tiffImageDataOffset (createTiffTagEntries 2 2 72 5 false "2024:01:01 00:00:00")) =
      [9, 8, 7, 6, 5] :=
  ⟨by decide,
    (buildTiffBuffer_spec 2 2 72 false "2024:01:01 00:00:00" [9, 8, 7, 6, 5]
      (by decide)).2.2.2.2.2.2⟩

end ImageConverter
